import Mathlib

/-!
# Verification of the TCS RAG pipeline (`tcs_rag.py`)

Shallow embedding of the three retrieval-augmented-generation strategies
`basic_rag`, `query_expansion_rag` and `multiple_queries_rag` from
`src/tcs_rag.py`, together with proofs of the testable properties stated in
the design document.

Modelling conventions:
* External collaborators (the chroma collection, the OpenAI client, the
  cross-encoder) are a record of functions (`Env`); a call either returns a
  value (`Except.ok`) or raises a Python exception carrying a message
  (`Except.error`).
* Each strategy is a pure function of the question, the environment and an
  abstract elapsed wall-clock time `t` (the value of
  `time.time() - start_time` at the point of return).  It returns the
  Python-level outcome (a result record, or an uncaught exception) paired
  with the ordered trace of collaborator calls it performed.
* Python strings are Lean `String`s; `str.strip()` and `str.split("\n")`
  are given structurally recursive definitions over the character list so
  that they evaluate inside the kernel.
* Cross-encoder relevance scores are modelled as integers: the code only
  ever compares scores (via `np.argsort`), so any linearly ordered numeric
  type represents them faithfully.  `np.argsort` guarantees only an index
  permutation that sorts the scores ascending (captured by `IsSortedIdx`);
  with the default `kind='quicksort'` the order of tied indices is
  unspecified above numpy's small-array insertion-sort cutoff.  The
  executable embedding instantiates the selection with the realization
  `argsort` (ties by position, numpy's behavior below the cutoff), and
  properties of the selection are proved for every realization of the
  contract.
-/

/-- Python `str.strip()`: remove whitespace from both ends of the string
(restricted to ASCII whitespace, which is all the pipeline produces). -/
def pyStrip (s : String) : String :=
  ⟨((s.data.dropWhile Char.isWhitespace).reverse.dropWhile Char.isWhitespace).reverse⟩

/-- Auxiliary state for `splitLines`: characters of the current fragment,
in reverse order. -/
def splitLinesAux : List Char → List Char → List String
  | [], cur => [⟨cur.reverse⟩]
  | c :: rest, cur =>
    if c = '\n' then ⟨cur.reverse⟩ :: splitLinesAux rest [] else splitLinesAux rest (c :: cur)

/-- Python `content.split("\n")`: split at every newline, keeping empty
fragments (so the result always has one more entry than there are
newlines). -/
def splitLines (s : String) : List String := splitLinesAux s.data []

/-- The fixed answer returned when retrieval produces no chunks
(`"No relevant information found in TCS report."`). -/
def noInfoAnswer : String := "No relevant information found in TCS report."

/-- The answer produced when the final generation call raises:
`f"Error calling OpenAI API: {str(e)}"`. -/
def apiErrorAnswer (e : String) : String := "Error calling OpenAI API: " ++ e

/-- The final-synthesis grounding prompt shared by all three strategies
(the f-string at lines 29-34, 101-106 and 206-211 of `tcs_rag.py`). -/
def synthesisPrompt (question context : String) : String :=
  "Based on the following excerpts from the TCS Annual Report, please answer this question: "
  ++ question
  ++ "\n\nContext from TCS Annual Report:\n"
  ++ context
  ++ "\n\nPlease provide a clear, accurate answer based only on the information provided above. If the context doesn't contain enough information to fully answer the question, please say so."

/-- The hypothetical-answer prompt of `query_expansion_rag` (lines 64-68). -/
def hypotheticalPrompt (question : String) : String :=
  "You are a helpful expert financial research assistant. Provide an example answer to the given question, that might be found in a document like an annual report.\n\nQuestion: "
  ++ question
  ++ "\n\nGenerate a realistic, detailed answer that would typically appear in an annual report:"

/-- The related-questions prompt of `multiple_queries_rag` (lines 138-147). -/
def relatedPrompt (question : String) : String :=
  "You are a helpful expert financial research assistant. Your users are asking questions about the TCS Annual Report.\n\nSuggest up to 5 additional related questions to help them find the information they need, for the provided question.\nSuggest only short questions without compound sentences. Suggest a variety of questions that cover different aspects of the topic.\nMake sure they are complete questions, and that they are related to the original question.\nOutput one question per line. Do not number the questions.\n\nOriginal question: "
  ++ question
  ++ "\n\nGenerate 5 related questions:"

/-- The collaborator environment: `chroma_collection.query` (projected to
`results['documents'][0]`), `client.responses.create` (projected to the
output text) and `cross_encoder.predict`.  `Except.error msg` models a
raised Python exception with message `msg`. -/
structure Env where
  retrieve : String → Nat → Except String (List String)
  generate : String → Except String String
  predict : List (String × String) → Except String (List Int)

/-- Source location of a generation-client call. -/
inductive GenSite where
  | hyp
  | related
  | synthesis
deriving DecidableEq, Repr

/-- One collaborator call, as recorded in a strategy's trace. -/
inductive Call where
  | retrieveCall (query : String) (k : Nat)
  | generateCall (site : GenSite) (prompt : String)
  | predictCall (pairs : List (String × String))
deriving DecidableEq, Repr

/-- Holds exactly for a generation call made for final answer synthesis. -/
def isFinalSynthesisCall : Call → Bool
  | .generateCall .synthesis _ => true
  | _ => false

/-- Python `round(runtime, 2)`. -/
def round2 (t : ℚ) : ℚ := (round (t * 100) : ℤ) / 100

/-- Result of `basic_rag`: `{"answer": str, "runtime": float}`. -/
structure PipelineResult where
  answer : String
  runtime : ℚ
deriving DecidableEq, Repr

/-- Result of `query_expansion_rag`:
`{"answer": str, "runtime": float, "hypothetical_answer": str}`. -/
structure QueryExpansionResult where
  answer : String
  runtime : ℚ
  hypothetical_answer : String
deriving DecidableEq, Repr

/-- Result of `multiple_queries_rag`:
`{"answer": str, "runtime": float, "generated_queries": list}`. -/
structure MultipleQueriesResult where
  answer : String
  runtime : ℚ
  generated_queries : List String
deriving DecidableEq, Repr

/-- Function `basic_rag` (lines 5-50): retrieve 5 chunks for the question verbatim,
short-circuit on empty retrieval, otherwise synthesize the final answer,
converting a generation exception into an error answer.  The retrieval call
is not guarded by a `try`, so a retrieval exception propagates. -/
def basic_rag (question : String) (env : Env) (t : ℚ) :
    Except String PipelineResult × List Call :=
  match env.retrieve question 5 with
  | .error e => (.error e, [.retrieveCall question 5])
  | .ok docs =>
    if docs = [] then
      (.ok ⟨noInfoAnswer, round2 t⟩, [.retrieveCall question 5])
    else
      let context := String.intercalate "\n\n" docs
      let prompt := synthesisPrompt question context
      match env.generate prompt with
      | .ok answer =>
        (.ok ⟨pyStrip answer, round2 t⟩,
          [.retrieveCall question 5, .generateCall .synthesis prompt])
      | .error e =>
        (.ok ⟨apiErrorAnswer e, round2 t⟩,
          [.retrieveCall question 5, .generateCall .synthesis prompt])

/-- The `hypothetical_answer` value of `query_expansion_rag` (lines 61-76):
the stripped generation output, or `""` if the generation call raised. -/
def hypotheticalOf (question : String) (env : Env) : String :=
  match env.generate (hypotheticalPrompt question) with
  | .ok s => pyStrip s
  | .error _ => ""

/-- The `expanded_query` of `query_expansion_rag` (lines 79-82): question
and hypothetical answer joined by a space, or the bare question when the
hypothetical answer is empty. -/
def expandedQueryOf (question : String) (env : Env) : String :=
  if hypotheticalOf question env ≠ "" then
    question ++ " " ++ hypotheticalOf question env
  else question

/-- Function `query_expansion_rag` (lines 53-124): generate a hypothetical answer
(falling back to `""` on failure), retrieve 5 chunks for the expanded
query, short-circuit on empty retrieval, otherwise synthesize the final
answer from the retrieved chunks and the original question.  The retrieval
call is not guarded by a `try`, so a retrieval exception propagates. -/
def query_expansion_rag (question : String) (env : Env) (t : ℚ) :
    Except String QueryExpansionResult × List Call :=
  let hypothetical_answer := hypotheticalOf question env
  let expanded_query := expandedQueryOf question env
  let trace0 := [Call.generateCall .hyp (hypotheticalPrompt question),
    Call.retrieveCall expanded_query 5]
  match env.retrieve expanded_query 5 with
  | .error e => (.error e, trace0)
  | .ok docs =>
    if docs = [] then
      (.ok ⟨noInfoAnswer, round2 t, hypothetical_answer⟩, trace0)
    else
      let context := String.intercalate "\n\n" docs
      let prompt := synthesisPrompt question context
      match env.generate prompt with
      | .ok answer =>
        (.ok ⟨pyStrip answer, round2 t, hypothetical_answer⟩,
          trace0 ++ [Call.generateCall .synthesis prompt])
      | .error e =>
        (.ok ⟨apiErrorAnswer e, round2 t, hypothetical_answer⟩,
          trace0 ++ [Call.generateCall .synthesis prompt])

/-- Parsing of the related-questions output (line 151): split into lines,
strip each, drop empties. -/
def parseQueries (content : String) : List String :=
  ((splitLines content).map pyStrip).filter (fun q => q ≠ "")

/-- Normalization of the parsed related questions (lines 153-158): truncate
to 5 when longer; when shorter, repeatedly append the first generated
question (or the original question when none were generated) until the
length is 5. -/
def normalizeQueries (question : String) (qs : List String) : List String :=
  if qs.length > 5 then qs.take 5
  else if qs.length < 5 then
    match qs with
    | [] => List.replicate 5 question
    | h :: _ => qs ++ List.replicate (5 - qs.length) h
  else qs

/-- The `generated_queries` value of `multiple_queries_rag` (lines
135-161): normalized parse of the generation output, or `[]` when the
generation call raised. -/
def generatedQueriesOf (question : String) (env : Env) : List String :=
  match env.generate (relatedPrompt question) with
  | .ok content => normalizeQueries question (parseQueries content)
  | .error _ => []

/-- Fan-out retrieval (lines 167-174): concatenate the chunks of every
query whose retrieval call succeeds; a raising retrieval contributes no
chunks. -/
def fanOutChunks (env : Env) (queries : List String) : List String :=
  queries.foldl (fun acc q =>
    match env.retrieve q 10 with
    | .ok docs => acc ++ docs
    | .error _ => acc) []

/-- Deduplication loop of lines 177-182, with `seen` playing the role of
`seen_chunks`. -/
def dedupAux : List String → List String → List String
  | [], _ => []
  | c :: rest, seen =>
    if c ∈ seen then dedupAux rest seen else c :: dedupAux rest (c :: seen)

/-- The `unique_chunks` of `multiple_queries_rag` (lines 176-182): keep the
first occurrence of every chunk, by exact string equality. -/
def dedupChunks (l : List String) : List String := dedupAux l []

/-- The deduplicated chunk pool of `multiple_queries_rag` for a given
question and environment. -/
def poolOf (question : String) (env : Env) : List String :=
  dedupChunks (fanOutChunks env (question :: generatedQueriesOf question env))

/-- Read of `scores[i]` (out-of-range reads never occur when the scorer honours its
length contract; they default to 0 in the model). -/
def scoreAt (scores : List Int) (i : ℕ) : Int := scores.getD i 0

/-- The ascending order of the executable argsort realization: compare
scores, break ties by index (the order numpy's stable insertion sort
produces below its small-array cutoff). -/
def idxRel (scores : List Int) (i j : ℕ) : Prop :=
  scoreAt scores i < scoreAt scores j ∨ (scoreAt scores i = scoreAt scores j ∧ i ≤ j)

instance (scores : List Int) : DecidableRel (idxRel scores) := fun i j => by
  unfold idxRel; infer_instance

instance (scores : List Int) : IsTotal ℕ (idxRel scores) where
  total i j := by
    rcases lt_trichotomy (scoreAt scores i) (scoreAt scores j) with h | h | h
    · exact Or.inl (Or.inl h)
    · rcases Nat.le_total i j with h2 | h2
      · exact Or.inl (Or.inr ⟨h, h2⟩)
      · exact Or.inr (Or.inr ⟨h.symm, h2⟩)
    · exact Or.inr (Or.inl h)

instance (scores : List Int) : IsTrans ℕ (idxRel scores) where
  trans i j k := by
    rintro (h | ⟨e, le⟩) (h2 | ⟨e2, le2⟩)
    · exact Or.inl (h.trans h2)
    · exact Or.inl (e2 ▸ h)
    · exact Or.inl (e ▸ h2)
    · exact Or.inr ⟨e.trans e2, le.trans le2⟩

/-- Executable realization of `np.argsort(scores)`: the index list
`[0, …, n-1]` sorted ascending by score with ties by position — numpy's
behavior below its insertion-sort cutoff.  Above the cutoff the default
quicksort may order tied indices differently, so proofs about the
selection quantify over every realization satisfying `IsSortedIdx`. -/
def argsort (scores : List Int) : List ℕ :=
  (List.range scores.length).insertionSort (idxRel scores)

/-- Model of `np.argsort(scores)[::-1][:5]` (line 197), instantiated with
the `argsort` realization. -/
def topIndices (scores : List Int) : List ℕ := (argsort scores).reverse.take 5

/-- Model of `[unique_chunks[i] for i in top_indices]` (line 198),
instantiated with the `argsort` realization. -/
def topChunks (chunks : List String) (scores : List Int) : List String :=
  (topIndices scores).map (fun i => chunks.getD i "")

/-- Contract of `np.argsort(scores)` (line 197): numpy guarantees only an
index permutation that sorts the scores ascending; with the default
`kind='quicksort'` (an unstable introsort above its small-array
insertion-sort cutoff) the relative order of tied indices is
unspecified. -/
def IsSortedIdx (scores : List Int) (perm : List ℕ) : Prop :=
  List.Perm perm (List.range scores.length) ∧
  perm.Pairwise (fun i j => scoreAt scores i ≤ scoreAt scores j)

instance (scores : List Int) (perm : List ℕ) : Decidable (IsSortedIdx scores perm) := by
  unfold IsSortedIdx; infer_instance

/-- Function `multiple_queries_rag` (lines 127-229): generate up to 5 related
questions (degrading to none on failure), fan out retrieval over the full
query set (skipping raising sub-queries), deduplicate, short-circuit on an
empty pool, re-rank with the cross-encoder, keep the top 5 chunks and
synthesize the final answer.  The `cross_encoder.predict` call is not
guarded by a `try`, so a scorer exception propagates. -/
def multiple_queries_rag (question : String) (env : Env) (t : ℚ) :
    Except String MultipleQueriesResult × List Call :=
  let generated_queries := generatedQueriesOf question env
  let all_queries := question :: generated_queries
  let trace0 := Call.generateCall .related (relatedPrompt question) ::
    all_queries.map (fun q => Call.retrieveCall q 10)
  let unique_chunks := poolOf question env
  if unique_chunks = [] then
    (.ok ⟨noInfoAnswer, round2 t, generated_queries⟩, trace0)
  else
    let pairs := unique_chunks.map (fun c => (question, c))
    match env.predict pairs with
    | .error e => (.error e, trace0 ++ [Call.predictCall pairs])
    | .ok scores =>
      let top_chunks := topChunks unique_chunks scores
      let context := String.intercalate "\n\n" top_chunks
      let prompt := synthesisPrompt question context
      match env.generate prompt with
      | .ok answer =>
        (.ok ⟨pyStrip answer, round2 t, generated_queries⟩,
          trace0 ++ [Call.predictCall pairs, Call.generateCall .synthesis prompt])
      | .error e =>
        (.ok ⟨apiErrorAnswer e, round2 t, generated_queries⟩,
          trace0 ++ [Call.predictCall pairs, Call.generateCall .synthesis prompt])

/-- First index at which a string occurs in a list (list length when
absent); used to state the first-occurrence ordering of deduplication. -/
def firstIdx : List String → String → ℕ
  | [], _ => 0
  | c :: rest, s => if c = s then 0 else firstIdx rest s + 1

/-! ## Concrete collaborator environments used to instantiate the theorems -/

/-- Every collaborator call succeeds; retrieval always finds two chunks. -/
def envAllOk : Env :=
  { retrieve := fun _ _ => .ok ["c1", "c2"]
    generate := fun _ => .ok "ans"
    predict := fun ps => .ok (List.range ps.length |>.map Int.ofNat) }

/-- The retrieval client raises on every call. -/
def envRetrievalRaises : Env :=
  { retrieve := fun _ _ => .error "boom"
    generate := fun _ => .ok "ans"
    predict := fun _ => .ok [] }

/-- The relevance scorer raises on every call. -/
def envScorerRaises : Env :=
  { retrieve := fun _ _ => .ok ["c1"]
    generate := fun _ => .ok "ans"
    predict := fun _ => .error "scorer down" }

/-- Retrieval always returns the empty chunk list. -/
def envEmptyRetrieval : Env :=
  { retrieve := fun _ _ => .ok []
    generate := fun _ => .ok "ans"
    predict := fun _ => .ok [] }

/-- Related-question generation returns exactly two lines. -/
def envTwoLines : Env :=
  { retrieve := fun _ _ => .ok []
    generate := fun _ => .ok "Q1\nQ2"
    predict := fun _ => .ok [] }

/-- Related-question generation returns six lines. -/
def envSixLines : Env :=
  { retrieve := fun _ _ => .ok []
    generate := fun _ => .ok "A\nB\nC\nD\nE\nF"
    predict := fun _ => .ok [] }

/-- Retrieval finds the pool `["A", "B"]`, the scorer scores it `[3, 1]`. -/
def envScored : Env :=
  { retrieve := fun _ _ => .ok ["A", "B"]
    generate := fun _ => .ok "x"
    predict := fun _ => .ok [3, 1] }

/-- The generation client raises on every call. -/
def envGenerationRaises : Env :=
  { retrieve := fun _ _ => .ok ["c1"]
    generate := fun _ => .error "quota"
    predict := fun _ => .ok [5] }

/-- The hypothetical-answer generation succeeds with padded text. -/
def envHyp : Env :=
  { retrieve := fun _ _ => .ok ["c1"]
    generate := fun _ => .ok " hyp text "
    predict := fun _ => .ok [] }

/-! ## Properties of deduplication -/

theorem mem_dedupAux {l seen : List String} {s : String} :
    s ∈ dedupAux l seen ↔ s ∈ l ∧ s ∉ seen := by
  induction l generalizing seen with
  | nil => simp [dedupAux]
  | cons c rest ih =>
    by_cases hc : c ∈ seen
    · rw [dedupAux, if_pos hc, ih]
      simp only [List.mem_cons]
      constructor
      · rintro ⟨hm, hn⟩
        exact ⟨Or.inr hm, hn⟩
      · rintro ⟨hm | hm, hn⟩
        · subst hm; exact absurd hc hn
        · exact ⟨hm, hn⟩
    · rw [dedupAux, if_neg hc]
      simp only [List.mem_cons, ih, List.mem_cons, not_or]
      constructor
      · rintro (rfl | ⟨hm, hne, hn⟩)
        · exact ⟨Or.inl rfl, hc⟩
        · exact ⟨Or.inr hm, hn⟩
      · rintro ⟨rfl | hm, hn⟩
        · exact Or.inl rfl
        · rcases eq_or_ne s c with rfl | hne
          · exact Or.inl rfl
          · exact Or.inr ⟨hm, hne, hn⟩

theorem mem_dedupChunks {l : List String} {s : String} :
    s ∈ dedupChunks l ↔ s ∈ l := by
  rw [dedupChunks, mem_dedupAux]
  simp

theorem pairwise_firstIdx_dedupAux (l : List String) : ∀ seen,
    (dedupAux l seen).Pairwise (fun a b => firstIdx l a < firstIdx l b) := by
  induction l with
  | nil => intro seen; simp [dedupAux]
  | cons c rest ih =>
    intro seen
    by_cases hc : c ∈ seen
    · rw [dedupAux, if_pos hc]
      refine (ih seen).imp_of_mem ?_
      intro a b ha hb hab
      have hanc : a ≠ c := fun h => (mem_dedupAux.mp ha).2 (by rw [h]; exact hc)
      have hbnc : b ≠ c := fun h => (mem_dedupAux.mp hb).2 (by rw [h]; exact hc)
      have h1 : firstIdx (c :: rest) a = firstIdx rest a + 1 := by
        rw [firstIdx, if_neg (Ne.symm hanc)]
      have h2 : firstIdx (c :: rest) b = firstIdx rest b + 1 := by
        rw [firstIdx, if_neg (Ne.symm hbnc)]
      omega
    · rw [dedupAux, if_neg hc]
      rw [List.pairwise_cons]
      constructor
      · intro b hb
        have hbnc : b ≠ c := fun h =>
          (mem_dedupAux.mp hb).2 (by rw [h]; exact List.mem_cons_self c seen)
        have h1 : firstIdx (c :: rest) c = 0 := by rw [firstIdx, if_pos rfl]
        have h2 : firstIdx (c :: rest) b = firstIdx rest b + 1 := by
          rw [firstIdx, if_neg (Ne.symm hbnc)]
        omega
      · refine (ih (c :: seen)).imp_of_mem ?_
        intro a b ha hb hab
        have hanc : a ≠ c := fun h =>
          (mem_dedupAux.mp ha).2 (by rw [h]; exact List.mem_cons_self c seen)
        have hbnc : b ≠ c := fun h =>
          (mem_dedupAux.mp hb).2 (by rw [h]; exact List.mem_cons_self c seen)
        have h1 : firstIdx (c :: rest) a = firstIdx rest a + 1 := by
          rw [firstIdx, if_neg (Ne.symm hanc)]
        have h2 : firstIdx (c :: rest) b = firstIdx rest b + 1 := by
          rw [firstIdx, if_neg (Ne.symm hbnc)]
        omega

theorem pairwise_firstIdx_dedupChunks (l : List String) :
    (dedupChunks l).Pairwise (fun a b => firstIdx l a < firstIdx l b) :=
  pairwise_firstIdx_dedupAux l []

theorem nodup_dedupChunks (l : List String) : (dedupChunks l).Nodup :=
  (pairwise_firstIdx_dedupChunks l).imp fun hab heq => absurd (heq ▸ hab) (lt_irrefl _)

/-! ## Properties of the top-5 selection -/

theorem argsort_perm (scores : List Int) :
    List.Perm (argsort scores) (List.range scores.length) :=
  List.perm_insertionSort _ _

theorem argsort_sorted (scores : List Int) :
    (argsort scores).Pairwise (idxRel scores) :=
  List.sorted_insertionSort _ _

theorem argsort_isSortedIdx (scores : List Int) :
    IsSortedIdx scores (argsort scores) :=
  ⟨argsort_perm scores,
    (argsort_sorted scores).imp
      (fun hab => hab.elim (fun hlt => hlt.le) (fun he => le_of_eq he.1))⟩

theorem sortedIdx_take_length {scores : List Int} {perm : List ℕ}
    (h : IsSortedIdx scores perm) :
    (perm.reverse.take 5).length = min 5 scores.length := by
  rw [List.length_take, List.length_reverse, h.1.length_eq, List.length_range]

theorem sortedIdx_score_ge {scores : List Int} {perm : List ℕ}
    (h : IsSortedIdx scores perm) {i j : ℕ}
    (hi : i ∈ perm.reverse.take 5) (hj : j < scores.length)
    (hj2 : j ∉ perm.reverse.take 5) : scoreAt scores j ≤ scoreAt scores i := by
  have hsplit := List.take_append_drop 5 perm.reverse
  have hrev : j ∈ perm.reverse := by
    rw [List.mem_reverse, h.1.mem_iff, List.mem_range]
    exact hj
  have hpair : perm.reverse.Pairwise (fun a b => scoreAt scores b ≤ scoreAt scores a) :=
    List.pairwise_reverse.mpr h.2
  rw [← hsplit] at hpair hrev
  have hmem : j ∈ perm.reverse.drop 5 := by
    rcases List.mem_append.mp hrev with hx | hx
    · exact absurd hx hj2
    · exact hx
  exact (List.pairwise_append.mp hpair).2.2 i hi j hmem

theorem sortedIdx_desc {scores : List Int} {perm : List ℕ}
    (h : IsSortedIdx scores perm) :
    (perm.reverse.take 5).Pairwise (fun i j => scoreAt scores j ≤ scoreAt scores i) :=
  List.Pairwise.sublist (List.take_sublist 5 _) (List.pairwise_reverse.mpr h.2)

/-! ## Properties of query-set normalization -/

theorem normalizeQueries_length (q : String) (qs : List String) :
    (normalizeQueries q qs).length = 5 := by
  rw [normalizeQueries.eq_def]
  by_cases h5 : qs.length > 5
  · rw [if_pos h5, List.length_take]
    omega
  · rw [if_neg h5]
    by_cases hlt : qs.length < 5
    · rw [if_pos hlt]
      cases qs with
      | nil => simp
      | cons h tl =>
        simp only [List.length_append, List.length_replicate, List.length_cons]
        simp only [List.length_cons] at hlt
        omega
    · rw [if_neg hlt]
      omega

theorem normalizeQueries_closed (q : String) (qs : List String) :
    normalizeQueries q qs =
      qs.take 5 ++ List.replicate (5 - qs.length) (qs.headD q) := by
  rw [normalizeQueries.eq_def]
  by_cases h5 : qs.length > 5
  · rw [if_pos h5]
    have h0 : 5 - qs.length = 0 := by omega
    rw [h0, List.replicate_zero, List.append_nil]
  · rw [if_neg h5]
    by_cases hlt : qs.length < 5
    · rw [if_pos hlt]
      cases qs with
      | nil => simp
      | cons h tl =>
        have ht : (h :: tl).take 5 = h :: tl :=
          List.take_of_length_le (by omega)
        rw [ht]
        rfl
    · rw [if_neg hlt]
      have hlen : qs.length = 5 := by omega
      rw [List.take_of_length_le (by omega), hlen]
      simp

theorem generatedQueriesOf_length_le (q : String) (env : Env) :
    (generatedQueriesOf q env).length ≤ 5 := by
  cases h : env.generate (relatedPrompt q) with
  | ok c => simp [generatedQueriesOf, h, normalizeQueries_length]
  | error e => simp [generatedQueriesOf, h]

/-! ## Claim theorems -/

/-- C6: for every concatenated chunk pool (possibly containing duplicates
under exact string equality), the deduplicated pool contains each distinct
chunk string exactly once, in order of first occurrence. -/
theorem C6_dedup (l : List String) :
    (∀ s, s ∈ dedupChunks l ↔ s ∈ l) ∧
    (∀ s ∈ l, (dedupChunks l).count s = 1) ∧
    (dedupChunks l).Pairwise (fun a b => firstIdx l a < firstIdx l b) := by
  refine ⟨fun s => mem_dedupChunks, fun s hs => ?_, pairwise_firstIdx_dedupChunks l⟩
  exact List.count_eq_one_of_mem (nodup_dedupChunks l) (mem_dedupChunks.mpr hs)

/-- Witness for C6 at the pool `["A", "B", "A"]`. -/
theorem C6_dedup_witness : (dedupChunks ["A", "B", "A"]).count "A" = 1 :=
  (C6_dedup ["A", "B", "A"]).2.1 "A" (by decide)

/-- C5 fails as stated: on the pool `["A", "B"]` with tied scores `[0, 0]`
(a 2-element array, below numpy's insertion-sort cutoff, where `np.argsort`
is its stable insertion sort — exactly the `argsort` realization), the
`[::-1]` reversal selects `["B", "A"]`: ties are broken by *reversed* pool
order here, not by the original pool order the claim asserts. -/
theorem C5_counterexample :
    topChunks ["A", "B"] [0, 0] = ["B", "A"] ∧
    topIndices [0, 0] = [1, 0] ∧
    ¬ (topIndices [0, 0]).Pairwise (fun i j =>
        scoreAt [0, 0] j < scoreAt [0, 0] i ∨
          (scoreAt [0, 0] i = scoreAt [0, 0] j ∧ i < j)) := by
  refine ⟨by decide, by decide, ?_⟩
  intro hp
  rw [(by decide : topIndices [0, 0] = [1, 0])] at hp
  have := (List.pairwise_cons.mp hp).1 0 (by decide)
  rcases this with h | ⟨_, h⟩
  · exact absurd h (by decide)
  · exact absurd h (by decide)

/-- C5 (amended): for every non-empty chunk pool and score vector of the
same length, and for every index order satisfying the `np.argsort`
contract (`IsSortedIdx`: ascending by score; the default quicksort leaves
the order of tied indices unspecified above numpy's small-array cutoff),
the chunk selection of lines 197-198 — reverse, take 5, index into the
pool — has length `min 5 pool_size`, every selected score is ≥ every
non-selected score, and the selection is in weakly descending score order.
The original claim's tie-break is not a property of the program: below the
cutoff the realization is the stable `argsort`, whose reversal orders ties
by *reversed* pool order (see the counterexample); above the cutoff the
tie order is unspecified.  The executable realization `argsort` satisfies
the contract. -/
theorem C5_topk_amended (chunks : List String) (scores : List Int)
    (_hnil : chunks ≠ []) (h : scores.length = chunks.length)
    (perm : List ℕ) (hperm : IsSortedIdx scores perm) :
    ((perm.reverse.take 5).map (fun i => chunks.getD i "")).length =
      min 5 chunks.length ∧
    (∀ i ∈ perm.reverse.take 5, ∀ j, j < scores.length →
      j ∉ perm.reverse.take 5 → scoreAt scores j ≤ scoreAt scores i) ∧
    (perm.reverse.take 5).Pairwise (fun i j =>
      scoreAt scores j ≤ scoreAt scores i) ∧
    IsSortedIdx scores (argsort scores) := by
  refine ⟨?_, fun i hi j hj hj2 => sortedIdx_score_ge hperm hi hj hj2,
    sortedIdx_desc hperm, argsort_isSortedIdx scores⟩
  rw [List.length_map, List.length_take, List.length_reverse, hperm.1.length_eq,
    List.length_range, h]

/-- Witness for C5 (amended) at pool `["A", "B"]` with tied scores
`[0, 0]` and the non-stable realization `[1, 0]` of the argsort
contract. -/
theorem C5_topk_amended_witness :
    (([1, 0].reverse.take 5).map (fun i => ["A", "B"].getD i "")).length =
      min 5 2 :=
  (C5_topk_amended ["A", "B"] [0, 0] (by decide) (by decide) [1, 0] (by decide)).1

/-- C3 fails as stated: a successful generation whose output parses to the
2 lines `["Q1", "Q2"]` produces `generated_queries` of length 5 (padding by
repetition of the first line), not `min(2, 5) = 2`. -/
theorem C3_counterexample :
    envTwoLines.generate (relatedPrompt "orig") = .ok "Q1\nQ2" ∧
    parseQueries "Q1\nQ2" = ["Q1", "Q2"] ∧
    generatedQueriesOf "orig" envTwoLines = ["Q1", "Q2", "Q1", "Q1", "Q1"] ∧
    (generatedQueriesOf "orig" envTwoLines).length ≠
      min (parseQueries "Q1\nQ2").length 5 :=
  ⟨rfl, by decide, by decide, by decide⟩

/-- C3 (amended): on any successful related-question generation the
resulting `generated_queries` has length exactly 5 (truncation above 5,
padding by repetition below 5); on a raising generation it has length 0;
in every case the full query set is one longer than `generated_queries`. -/
theorem C3_query_normalization_amended (q : String) (env : Env) :
    (∀ content, env.generate (relatedPrompt q) = .ok content →
      (generatedQueriesOf q env).length = 5) ∧
    (∀ e, env.generate (relatedPrompt q) = .error e →
      (generatedQueriesOf q env).length = 0) ∧
    (q :: generatedQueriesOf q env).length = 1 + (generatedQueriesOf q env).length := by
  refine ⟨fun content hc => ?_, fun e he => ?_, ?_⟩
  · simp [generatedQueriesOf, hc, normalizeQueries_length]
  · simp [generatedQueriesOf, he]
  · rw [List.length_cons, Nat.add_comm]

/-- Witness for C3 (amended) in the environment `envTwoLines`. -/
theorem C3_query_normalization_amended_witness :
    (generatedQueriesOf "orig" envTwoLines).length = 5 :=
  (C3_query_normalization_amended "orig" envTwoLines).1 "Q1\nQ2" rfl

/-- C4: on successful related-question generation, `generated_queries` is
the first 5 parsed lines padded (by repeating the first parsed line, or the
original question if no line parsed) to length 5; on a raising generation
it is `[]` and the query set collapses to the bare question; in all cases
the fan-out retrieval trace covers exactly the original question followed
by `generated_queries`. -/
theorem C4_query_normalization (q : String) (env : Env) (t : ℚ) :
    (∀ content, env.generate (relatedPrompt q) = .ok content →
      generatedQueriesOf q env =
        (parseQueries content).take 5 ++
          List.replicate (5 - (parseQueries content).length)
            ((parseQueries content).headD q)) ∧
    (∀ e, env.generate (relatedPrompt q) = .error e →
      generatedQueriesOf q env = [] ∧ q :: generatedQueriesOf q env = [q]) ∧
    (∃ rest, (multiple_queries_rag q env t).2 =
      Call.generateCall .related (relatedPrompt q) ::
        (((q :: generatedQueriesOf q env).map (fun s => Call.retrieveCall s 10)) ++ rest)) := by
  refine ⟨fun content hc => ?_, fun e he => ?_, ?_⟩
  · simp [generatedQueriesOf, hc, normalizeQueries_closed]
  · simp [generatedQueriesOf, he]
  · by_cases hp : poolOf q env = []
    · exact ⟨[], by simp [multiple_queries_rag, hp]⟩
    · cases hpred : env.predict ((poolOf q env).map (fun c => (q, c))) with
      | error e => exact ⟨[Call.predictCall ((poolOf q env).map (fun c => (q, c)))],
          by simp [multiple_queries_rag, hp, hpred]⟩
      | ok scores =>
        cases hg : env.generate (synthesisPrompt q
            (String.intercalate "\n\n" (topChunks (poolOf q env) scores))) with
        | ok a =>
          refine ⟨[Call.predictCall ((poolOf q env).map (fun c => (q, c))),
            Call.generateCall .synthesis (synthesisPrompt q
              (String.intercalate "\n\n" (topChunks (poolOf q env) scores)))], ?_⟩
          simp [multiple_queries_rag, hp, hpred, hg]
        | error e =>
          refine ⟨[Call.predictCall ((poolOf q env).map (fun c => (q, c))),
            Call.generateCall .synthesis (synthesisPrompt q
              (String.intercalate "\n\n" (topChunks (poolOf q env) scores)))], ?_⟩
          simp [multiple_queries_rag, hp, hpred, hg]

/-- Witness for C4: six generated lines are truncated to the first five. -/
theorem C4_query_normalization_witness :
    generatedQueriesOf "q" envSixLines = ["A", "B", "C", "D", "E"] := by
  have h := (C4_query_normalization "q" envSixLines 0).1 "A\nB\nC\nD\nE\nF" rfl
  rw [h]
  decide

/-- C1 fails as stated: a raising retrieval client escapes `basic_rag` and
`query_expansion_rag` (the retrieval call is outside every `try`), and a
raising relevance scorer escapes `multiple_queries_rag`. -/
theorem C1_counterexample :
    (basic_rag "q" envRetrievalRaises 0).1 = .error "boom" ∧
    (query_expansion_rag "q" envRetrievalRaises 0).1 = .error "boom" ∧
    (multiple_queries_rag "q" envScorerRaises 0).1 = .error "scorer down" :=
  ⟨rfl, rfl, rfl⟩

/-- C1 (amended): each strategy returns a result record for every
generation-client behaviour, but totality is only guaranteed when the
unguarded calls return: the single retrieval call in `basic_rag` and
`query_expansion_rag`, and the scorer call in `multiple_queries_rag`
(whose per-query retrieval failures are swallowed). -/
theorem C1_totality_amended (q : String) (env : Env) (t : ℚ) :
    ((∃ docs, env.retrieve q 5 = .ok docs) →
      ∃ r, (basic_rag q env t).1 = .ok r) ∧
    ((∃ docs, env.retrieve (expandedQueryOf q env) 5 = .ok docs) →
      ∃ r, (query_expansion_rag q env t).1 = .ok r) ∧
    ((∃ scores, env.predict ((poolOf q env).map (fun c => (q, c))) = .ok scores) →
      ∃ r, (multiple_queries_rag q env t).1 = .ok r) := by
  refine ⟨?_, ?_, ?_⟩
  · rintro ⟨docs, hd⟩
    by_cases hnil : docs = []
    · exact ⟨⟨noInfoAnswer, round2 t⟩, by simp [basic_rag, hd, hnil]⟩
    · cases hg : env.generate (synthesisPrompt q (String.intercalate "\n\n" docs)) with
      | ok a => exact ⟨⟨pyStrip a, round2 t⟩, by simp [basic_rag, hd, hnil, hg]⟩
      | error e => exact ⟨⟨apiErrorAnswer e, round2 t⟩, by simp [basic_rag, hd, hnil, hg]⟩
  · rintro ⟨docs, hd⟩
    by_cases hnil : docs = []
    · exact ⟨⟨noInfoAnswer, round2 t, hypotheticalOf q env⟩,
        by simp [query_expansion_rag, hd, hnil]⟩
    · cases hg : env.generate (synthesisPrompt q (String.intercalate "\n\n" docs)) with
      | ok a => exact ⟨⟨pyStrip a, round2 t, hypotheticalOf q env⟩,
          by simp [query_expansion_rag, hd, hnil, hg]⟩
      | error e => exact ⟨⟨apiErrorAnswer e, round2 t, hypotheticalOf q env⟩,
          by simp [query_expansion_rag, hd, hnil, hg]⟩
  · rintro ⟨scores, hs⟩
    by_cases hp : poolOf q env = []
    · exact ⟨⟨noInfoAnswer, round2 t, generatedQueriesOf q env⟩,
        by simp [multiple_queries_rag, hp]⟩
    · cases hg : env.generate (synthesisPrompt q
          (String.intercalate "\n\n" (topChunks (poolOf q env) scores))) with
      | ok a => exact ⟨⟨pyStrip a, round2 t, generatedQueriesOf q env⟩,
          by simp [multiple_queries_rag, hp, hs, hg]⟩
      | error e => exact ⟨⟨apiErrorAnswer e, round2 t, generatedQueriesOf q env⟩,
          by simp [multiple_queries_rag, hp, hs, hg]⟩

/-- Witness for C1 (amended) in the all-successful environment. -/
theorem C1_totality_amended_witness :
    ∃ r, (basic_rag "q" envAllOk 0).1 = Except.ok r :=
  (C1_totality_amended "q" envAllOk 0).1 ⟨["c1", "c2"], rfl⟩

/-- C2: whenever retrieval yields zero chunks (for the multi-query
strategy: whenever the deduplicated pool is empty), the result's answer is
exactly the no-information string and the trace contains no final-synthesis
generation call. -/
theorem C2_empty_retrieval (q : String) (env : Env) (t : ℚ) :
    (env.retrieve q 5 = .ok [] →
      (basic_rag q env t).1 = .ok ⟨noInfoAnswer, round2 t⟩ ∧
      ∀ c ∈ (basic_rag q env t).2, isFinalSynthesisCall c = false) ∧
    (env.retrieve (expandedQueryOf q env) 5 = .ok [] →
      (query_expansion_rag q env t).1 =
        .ok ⟨noInfoAnswer, round2 t, hypotheticalOf q env⟩ ∧
      ∀ c ∈ (query_expansion_rag q env t).2, isFinalSynthesisCall c = false) ∧
    (poolOf q env = [] →
      (multiple_queries_rag q env t).1 =
        .ok ⟨noInfoAnswer, round2 t, generatedQueriesOf q env⟩ ∧
      ∀ c ∈ (multiple_queries_rag q env t).2, isFinalSynthesisCall c = false) := by
  refine ⟨fun h => ⟨by simp [basic_rag, h], ?_⟩,
    fun h => ⟨by simp [query_expansion_rag, h], ?_⟩,
    fun h => ⟨by simp [multiple_queries_rag, h], ?_⟩⟩
  · intro c hc
    simp [basic_rag, h] at hc
    subst hc
    rfl
  · intro c hc
    simp [query_expansion_rag, h] at hc
    rcases hc with rfl | rfl <;> rfl
  · intro c hc
    simp [multiple_queries_rag, h] at hc
    rcases hc with rfl | rfl | ⟨a, ha, rfl⟩ <;> rfl

/-- Witness for C2 in the empty-retrieval environment. -/
theorem C2_empty_retrieval_witness :
    (basic_rag "q" envEmptyRetrieval 0).1 = .ok ⟨noInfoAnswer, round2 0⟩ :=
  ((C2_empty_retrieval "q" envEmptyRetrieval 0).1 rfl).1

/-- C7: a raising final-synthesis generation call is not re-raised: every
strategy still returns a result whose answer is the API-error message
containing the exception text, with the runtime field present. -/
theorem C7_synthesis_failure (q : String) (env : Env) (t : ℚ) :
    (∀ docs e, env.retrieve q 5 = .ok docs → docs ≠ [] →
      env.generate (synthesisPrompt q (String.intercalate "\n\n" docs)) = .error e →
      (basic_rag q env t).1 = .ok ⟨"Error calling OpenAI API: " ++ e, round2 t⟩) ∧
    (∀ docs e, env.retrieve (expandedQueryOf q env) 5 = .ok docs → docs ≠ [] →
      env.generate (synthesisPrompt q (String.intercalate "\n\n" docs)) = .error e →
      (query_expansion_rag q env t).1 =
        .ok ⟨"Error calling OpenAI API: " ++ e, round2 t, hypotheticalOf q env⟩) ∧
    (∀ scores e, poolOf q env ≠ [] →
      env.predict ((poolOf q env).map (fun c => (q, c))) = .ok scores →
      env.generate (synthesisPrompt q
        (String.intercalate "\n\n" (topChunks (poolOf q env) scores))) = .error e →
      (multiple_queries_rag q env t).1 =
        .ok ⟨"Error calling OpenAI API: " ++ e, round2 t, generatedQueriesOf q env⟩) := by
  refine ⟨fun docs e hd hnil hg => ?_, fun docs e hd hnil hg => ?_,
    fun scores e hp hs hg => ?_⟩
  · simp [basic_rag, hd, hnil, hg, apiErrorAnswer]
  · simp [query_expansion_rag, hd, hnil, hg, apiErrorAnswer]
  · simp [multiple_queries_rag, hp, hs, hg, apiErrorAnswer]

/-- Witness for C7 in the environment whose generation client raises. -/
theorem C7_synthesis_failure_witness :
    (basic_rag "q" envGenerationRaises 0).1 =
      .ok ⟨"Error calling OpenAI API: " ++ "quota", round2 0⟩ :=
  (C7_synthesis_failure "q" envGenerationRaises 0).1 ["c1"] "quota" rfl (by decide) rfl

/-- C8: the retrieval query of `query_expansion_rag` is the question and
the hypothetical answer joined by a single space (the bare question when
the hypothetical answer is empty), and the final synthesis prompt embeds
the original question with a context section built only from the retrieved
chunks — never from the hypothetical answer. -/
theorem C8_query_expansion (q : String) (env : Env) (t : ℚ) :
    (hypotheticalOf q env ≠ "" →
      expandedQueryOf q env = q ++ " " ++ hypotheticalOf q env) ∧
    (hypotheticalOf q env = "" → expandedQueryOf q env = q) ∧
    (∀ docs, env.retrieve (expandedQueryOf q env) 5 = .ok docs → docs ≠ [] →
      (query_expansion_rag q env t).2 =
        [Call.generateCall .hyp (hypotheticalPrompt q),
         Call.retrieveCall (expandedQueryOf q env) 5,
         Call.generateCall .synthesis
           (synthesisPrompt q (String.intercalate "\n\n" docs))]) := by
  refine ⟨fun h => by rw [expandedQueryOf, if_pos h],
    fun h => by rw [expandedQueryOf, if_neg (by simp [h])], ?_⟩
  intro docs hd hnil
  cases hg : env.generate (synthesisPrompt q (String.intercalate "\n\n" docs)) with
  | ok a => simp [query_expansion_rag, hd, hnil, hg]
  | error e => simp [query_expansion_rag, hd, hnil, hg]

/-- Witness for C8: a non-empty hypothetical answer is appended to the
question with a single space. -/
theorem C8_query_expansion_witness :
    expandedQueryOf "q" envHyp = "q" ++ " " ++ hypotheticalOf "q" envHyp :=
  (C8_query_expansion "q" envHyp 0).1 (by decide)

/-- C9: every returned result carries `answer` and `runtime` (intrinsic to
the result record types); `query_expansion_rag` carries the same
`hypothetical_answer` on every path, and `multiple_queries_rag` carries
`generated_queries` of length at most 5 on every path. -/
theorem C9_result_contract (q : String) (env : Env) (t : ℚ) :
    (∀ r, (basic_rag q env t).1 = .ok r → r.runtime = round2 t) ∧
    (∀ r, (query_expansion_rag q env t).1 = .ok r →
      r.hypothetical_answer = hypotheticalOf q env ∧ r.runtime = round2 t) ∧
    (∀ r, (multiple_queries_rag q env t).1 = .ok r →
      r.generated_queries = generatedQueriesOf q env ∧
      r.generated_queries.length ≤ 5 ∧ r.runtime = round2 t) := by
  refine ⟨?_, ?_, ?_⟩
  · intro r hr
    cases hret : env.retrieve q 5 with
    | error e => simp [basic_rag, hret] at hr
    | ok docs =>
      by_cases hnil : docs = []
      · simp [basic_rag, hret, hnil] at hr
        subst hr; rfl
      · cases hg : env.generate (synthesisPrompt q (String.intercalate "\n\n" docs)) with
        | ok a =>
          simp [basic_rag, hret, hnil, hg] at hr
          subst hr; rfl
        | error e =>
          simp [basic_rag, hret, hnil, hg] at hr
          subst hr; rfl
  · intro r hr
    cases hret : env.retrieve (expandedQueryOf q env) 5 with
    | error e => simp [query_expansion_rag, hret] at hr
    | ok docs =>
      by_cases hnil : docs = []
      · simp [query_expansion_rag, hret, hnil] at hr
        subst hr; exact ⟨rfl, rfl⟩
      · cases hg : env.generate (synthesisPrompt q (String.intercalate "\n\n" docs)) with
        | ok a =>
          simp [query_expansion_rag, hret, hnil, hg] at hr
          subst hr; exact ⟨rfl, rfl⟩
        | error e =>
          simp [query_expansion_rag, hret, hnil, hg] at hr
          subst hr; exact ⟨rfl, rfl⟩
  · intro r hr
    by_cases hp : poolOf q env = []
    · simp [multiple_queries_rag, hp] at hr
      subst hr
      exact ⟨rfl, generatedQueriesOf_length_le q env, rfl⟩
    · cases hs : env.predict ((poolOf q env).map (fun c => (q, c))) with
      | error e => simp [multiple_queries_rag, hp, hs] at hr
      | ok scores =>
        cases hg : env.generate (synthesisPrompt q
            (String.intercalate "\n\n" (topChunks (poolOf q env) scores))) with
        | ok a =>
          simp [multiple_queries_rag, hp, hs, hg] at hr
          subst hr
          exact ⟨rfl, generatedQueriesOf_length_le q env, rfl⟩
        | error e =>
          simp [multiple_queries_rag, hp, hs, hg] at hr
          subst hr
          exact ⟨rfl, generatedQueriesOf_length_le q env, rfl⟩

/-- Witness for C9 at a concrete `multiple_queries_rag` run. -/
theorem C9_result_contract_witness :
    (⟨"ans", round2 0, ["ans", "ans", "ans", "ans", "ans"]⟩ :
        MultipleQueriesResult).generated_queries = generatedQueriesOf "q" envAllOk ∧
    (["ans", "ans", "ans", "ans", "ans"] : List String).length ≤ 5 ∧
    (⟨"ans", round2 0, ["ans", "ans", "ans", "ans", "ans"]⟩ :
        MultipleQueriesResult).runtime = round2 0 :=
  (C9_result_contract "q" envAllOk 0).2.2
    ⟨"ans", round2 0, ["ans", "ans", "ans", "ans", "ans"]⟩ rfl

/-- C10: each strategy is deterministic modulo timing — with the same
collaborators, two runs differing only in elapsed wall-clock time agree on
every result field except `runtime`. -/
theorem C10_determinism (q : String) (env : Env) (t₁ t₂ : ℚ) :
    (basic_rag q env t₁).1.map (fun r => r.answer) =
      (basic_rag q env t₂).1.map (fun r => r.answer) ∧
    (query_expansion_rag q env t₁).1.map (fun r => (r.answer, r.hypothetical_answer)) =
      (query_expansion_rag q env t₂).1.map (fun r => (r.answer, r.hypothetical_answer)) ∧
    (multiple_queries_rag q env t₁).1.map (fun r => (r.answer, r.generated_queries)) =
      (multiple_queries_rag q env t₂).1.map (fun r => (r.answer, r.generated_queries)) := by
  refine ⟨?_, ?_, ?_⟩
  · cases hret : env.retrieve q 5 with
    | error e => simp [basic_rag, hret, Except.map]
    | ok docs =>
      by_cases hnil : docs = []
      · simp [basic_rag, hret, hnil, Except.map]
      · cases hg : env.generate (synthesisPrompt q (String.intercalate "\n\n" docs)) with
        | ok a => simp [basic_rag, hret, hnil, hg, Except.map]
        | error e => simp [basic_rag, hret, hnil, hg, Except.map]
  · cases hret : env.retrieve (expandedQueryOf q env) 5 with
    | error e => simp [query_expansion_rag, hret, Except.map]
    | ok docs =>
      by_cases hnil : docs = []
      · simp [query_expansion_rag, hret, hnil, Except.map]
      · cases hg : env.generate (synthesisPrompt q (String.intercalate "\n\n" docs)) with
        | ok a => simp [query_expansion_rag, hret, hnil, hg, Except.map]
        | error e => simp [query_expansion_rag, hret, hnil, hg, Except.map]
  · by_cases hp : poolOf q env = []
    · simp [multiple_queries_rag, hp, Except.map]
    · cases hs : env.predict ((poolOf q env).map (fun c => (q, c))) with
      | error e => simp [multiple_queries_rag, hp, hs, Except.map]
      | ok scores =>
        cases hg : env.generate (synthesisPrompt q
            (String.intercalate "\n\n" (topChunks (poolOf q env) scores))) with
        | ok a => simp [multiple_queries_rag, hp, hs, hg, Except.map]
        | error e => simp [multiple_queries_rag, hp, hs, hg, Except.map]
